import Mathlib

/-!
Verification of the vs-utils protein–ligand featurization core
(NNScore/Binana interaction fingerprints and the featurize script).

The geometry primitives, atomic model, charge rules, ring perception and
the Binana interaction engine live in `vs_utils/features/nnscore_helper.py`
and `vs_utils/features/nnscore.py`; those modules are not present in this
source snapshot (only their test suites are), so they are modelled here
from the specification.  `vs_utils/scripts/featurize.py` is present and is
embedded directly.  Coordinates are embedded as exact rationals; distance
comparisons are made on squared distances (the square is monotone on
nonnegatives, so every cutoff test is unchanged).
-/

namespace VsUtils

/-- Modelled from the spec: `Point` — immutable (x, y, z) coordinate record
from `nnscore_helper.py` (absent from src/); coordinates embedded as ℚ. -/
structure Point where
  x : ℚ
  y : ℚ
  z : ℚ
deriving DecidableEq, Repr, Inhabited

/-- Modelled from the spec: the squared Euclidean distance underlying
`Point.dist_to` (the source takes a square root; we keep the exact square,
and state metric facts through `Real.sqrt` of this value). -/
def distSq (p q : Point) : ℚ :=
  (p.x - q.x) ^ 2 + (p.y - q.y) ^ 2 + (p.z - q.z) ^ 2

/-- Modelled from the spec: `average_point(p, q)` — the midpoint of two
points (`nnscore_helper.py`, absent from src/). -/
def average_point (p q : Point) : Point :=
  ⟨(p.x + q.x) / 2, (p.y + q.y) / 2, (p.z + q.z) / 2⟩

/-- Modelled from the spec: the `Atom` record of `nnscore_helper.py`
(absent from src/): name, element, residue metadata, coordinates, partial
charge, the one-directional bond list `indices_of_atoms_connecting`, a
coarse secondary-structure label and the autodock atom type. -/
structure Atom where
  atomname : String := ""
  element : String := ""
  residue : String := ""
  chain : String := ""
  residue_number : Int := 0
  coordinates : Point := ⟨0, 0, 0⟩
  charge : ℚ := 0
  indices_of_atoms_connecting : List Nat := []
  structure_label : String := "OTHER"
  atomtype : String := ""
deriving DecidableEq, Repr, Inhabited

/-- Modelled from the spec: `Atom.number_of_neighbors`. -/
def Atom.number_of_neighbors (a : Atom) : Nat :=
  a.indices_of_atoms_connecting.length

/-- Modelled from the spec: a discrete rule-derived point charge
(`charged` in `nnscore_helper.py`, absent from src/). -/
structure ChargedGroup where
  positive : Bool
  coordinates : Point
  indices : List Nat := []
deriving DecidableEq, Repr, Inhabited

/-- Modelled from the spec: a perceived aromatic ring (`aromatic` in
`nnscore_helper.py`, absent from src/). -/
structure AromaticRing where
  indices : List Nat
  center : Point := ⟨0, 0, 0⟩
deriving DecidableEq, Repr, Inhabited

/-- Modelled from the spec: the `PDB` atomic model of `nnscore_helper.py`
(absent from src/): index→atom association (1-based monotone indices),
the distinguished non-protein subset (kept as an index list), assigned
charges and perceived aromatic rings. -/
structure PDB where
  all_atoms : List (Nat × Atom) := []
  non_protein_indices : List Nat := []
  charges : List ChargedGroup := []
  aromatic_rings : List AromaticRing := []
deriving DecidableEq, Repr, Inhabited

/-- Look an atom up by index (first matching association entry). -/
def PDB.lookup (p : PDB) (i : Nat) : Option Atom :=
  (p.all_atoms.find? (fun e => e.1 = i)).map Prod.snd

/-- The stored (one-directional) bond list of atom `i`, `[]` when absent. -/
def PDB.connectedListOf (p : PDB) (i : Nat) : List Nat :=
  match p.lookup i with
  | some a => a.indices_of_atoms_connecting
  | none => []

/-- The element of atom `i`, when present. -/
def PDB.elementOf (p : PDB) (i : Nat) : Option String :=
  (p.lookup i).map Atom.element

/-- Modelled from the spec: `add_new_atom` — insert with the next 1-based
monotone index. -/
def PDB.add_new_atom (p : PDB) (a : Atom) : PDB :=
  { p with all_atoms := p.all_atoms ++ [(p.all_atoms.length + 1, a)] }

/-- Modelled from the spec: `add_new_non_protein_atom` — insert and mark
the new index as non-protein. -/
def PDB.add_new_non_protein_atom (p : PDB) (a : Atom) : PDB :=
  { p with
    all_atoms := p.all_atoms ++ [(p.all_atoms.length + 1, a)],
    non_protein_indices := p.non_protein_indices ++ [p.all_atoms.length + 1] }

/-- `i` records a bond to `j` in its own stored list. -/
def PDB.bondedOneWay (p : PDB) (i j : Nat) : Bool :=
  decide (j ∈ p.connectedListOf i)

/-- The symmetrized (undirected) bond relation: a bond recorded in either
direction counts. -/
def PDB.symmetrizedBond (p : PDB) (i j : Nat) : Bool :=
  p.bondedOneWay i j || p.bondedOneWay j i

/-- Modelled from the spec: `connected_atoms_of_given_element(index,
element)` — neighbors of `index` under the symmetrized adjacency whose
element matches (spec §4.1). -/
def PDB.connected_atoms_of_given_element (p : PDB) (index : Nat)
    (elem : String) : List Nat :=
  p.all_atoms.filterMap (fun e =>
    if e.1 ≠ index ∧ p.symmetrizedBond index e.1 ∧ e.2.element = elem then
      some e.1
    else none)

/-- Modelled from the spec: `connected_heavy_atoms(index)` — neighbors of
`index` under the symmetrized adjacency whose element is not hydrogen. -/
def PDB.connected_heavy_atoms (p : PDB) (index : Nat) : List Nat :=
  p.all_atoms.filterMap (fun e =>
    if e.1 ≠ index ∧ p.symmetrizedBond index e.1 ∧ e.2.element ≠ "H" then
      some e.1
    else none)

/-- Does the model contain an atom with index `i`? -/
def PDB.hasIndex (p : PDB) (i : Nat) : Bool :=
  p.all_atoms.any (fun e => e.1 = i)

/-- Append `extra` to the stored bond list of the entry with key `c`,
leaving every other entry untouched. -/
def updConnecting (c : Nat) (extra : List Nat) (l : List (Nat × Atom)) :
    List (Nat × Atom) :=
  l.map (fun e =>
    if e.1 = c then
      (e.1, { e.2 with indices_of_atoms_connecting :=
                e.2.indices_of_atoms_connecting ++ extra })
    else e)

/-- Modelled from the spec: processing one explicit-connectivity (CONECT)
record `(center, listed)` from `load_bonds_from_PDB_list`
(`nnscore_helper.py`, absent from src/): the center atom's
`indices_of_atoms_connecting` gains the listed indices (dangling
references to nonexistent atoms are dropped); the reverse direction is
not added. -/
def PDB.applyBondRecord (p : PDB) (r : Nat × List Nat) : PDB :=
  { p with all_atoms :=
      updConnecting r.1 (r.2.filter (fun j => p.hasIndex j)) p.all_atoms }

/-- Modelled from the spec: `load_bonds_from_PDB_list` — fold the
connectivity records over the model. -/
def PDB.load_bonds_from_PDB_list (p : PDB) (records : List (Nat × List Nat)) :
    PDB :=
  records.foldl PDB.applyBondRecord p

/-- Modelled from the spec: covalent radii (Å) used by the
element-pair-dependent bond-length table of `nnscore_helper.py` (absent
from src/). -/
def covalentRadius (e : String) : ℚ :=
  if e = "H" then 37/100
  else if e = "C" then 77/100
  else if e = "N" then 75/100
  else if e = "O" then 73/100
  else if e = "S" then 102/100
  else if e = "P" then 106/100
  else if e = "F" then 71/100
  else if e = "CL" then 99/100
  else if e = "BR" then 114/100
  else if e = "I" then 133/100
  else 150/100

/-- Modelled from the spec: the element-pair-dependent distance threshold
(covalent-radius sum plus tolerance) below which a bond is inferred. -/
def bondDistanceThreshold (e1 e2 : String) : ℚ :=
  covalentRadius e1 + covalentRadius e2 + 2/5

/-- Modelled from the spec: the per-pair test of
`create_non_protein_atom_bonds_by_distance`: both atoms are distinct
non-protein atoms of the model whose separation is below the
element-pair threshold (compared on squares). -/
def PDB.inferredBond (p : PDB) (i j : Nat) : Bool :=
  decide (i ≠ j) && decide (i ∈ p.non_protein_indices) &&
  decide (j ∈ p.non_protein_indices) &&
  match p.lookup i, p.lookup j with
  | some a, some b =>
      decide (distSq a.coordinates b.coordinates <
        bondDistanceThreshold a.element b.element ^ 2)
  | _, _ => false

/-- The indices atom `i` gains from distance-based bond inference. -/
def PDB.gainedDistanceBonds (p : PDB) (i : Nat) : List Nat :=
  (p.all_atoms.map Prod.fst).filter (fun j => p.inferredBond i j)

/-- Append the inferred distance bonds to one association entry. -/
def PDB.addGainedEntry (p : PDB) (e : Nat × Atom) : Nat × Atom :=
  (e.1, { e.2 with indices_of_atoms_connecting :=
            e.2.indices_of_atoms_connecting ++ p.gainedDistanceBonds e.1 })

/-- Modelled from the spec: `create_non_protein_atom_bonds_by_distance` —
every non-protein atom's bond list gains every other non-protein atom
whose separation is below the element-pair threshold. -/
def PDB.create_non_protein_atom_bonds_by_distance (p : PDB) : PDB :=
  { p with all_atoms := p.all_atoms.map p.addGainedEntry }

/-- Centroid of a list of points (its representative location). -/
def centroid (ps : List Point) : Point :=
  match ps with
  | [] => ⟨0, 0, 0⟩
  | _ => ⟨(ps.map Point.x).sum / ps.length,
          (ps.map Point.y).sum / ps.length,
          (ps.map Point.z).sum / ps.length⟩

/-- The residue key of an atom (`RESNAME_RESNUMBER_CHAIN`). -/
def Atom.residueKey (a : Atom) : String :=
  a.residue ++ "_" ++ toString a.residue_number ++ "_" ++ a.chain

/-- Modelled from the spec: `get_residues` — group atom indices by their
(residue name, residue number, chain) key, in order of first occurrence. -/
def PDB.get_residues (p : PDB) : List (String × List Nat) :=
  p.all_atoms.foldl (fun acc e =>
    let k := e.2.residueKey
    if acc.any (fun g => g.1 = k) then
      acc.map (fun g => if g.1 = k then (g.1, g.2 ++ [e.1]) else g)
    else acc ++ [(k, [e.1])]) []

/-- Modelled from the spec: the shared shape of the per-residue protein
charge rules — for a residue group of the given residue name, collect the
named side-chain atoms and emit one charge of the rule's polarity at
their centroid. -/
def residueCharge (p : PDB) (resname : String) (pickNames : List String)
    (pos : Bool) (g : String × List Nat) : Option ChargedGroup :=
  let atoms := g.2.filterMap (fun i => (p.lookup i).map (fun a => (i, a)))
  match atoms with
  | [] => none
  | (_, a0) :: _ =>
    if a0.residue = resname then
      let picked := atoms.filter (fun ia => ia.2.atomname ∈ pickNames)
      if picked.isEmpty then none
      else some ⟨pos, centroid (picked.map (fun ia => ia.2.coordinates)),
        picked.map Prod.fst⟩
    else none

/-- Modelled from the spec: `get_lysine_charges` — LYS terminal amine
nitrogen (NZ), positive. -/
def PDB.get_lysine_charges (p : PDB) (residues : List (String × List Nat)) :
    List ChargedGroup :=
  residues.filterMap (residueCharge p "LYS" ["NZ"] true)

/-- Modelled from the spec: `get_arginine_charges` — ARG guanidinium group
(NE, CZ, NH1, NH2), positive at its centroid. -/
def PDB.get_arginine_charges (p : PDB) (residues : List (String × List Nat)) :
    List ChargedGroup :=
  residues.filterMap (residueCharge p "ARG" ["NE", "CZ", "NH1", "NH2"] true)

/-- Modelled from the spec: `get_histidine_charges` — HIS imidazole ring
nitrogens (ND1, NE2), positive at their centroid. -/
def PDB.get_histidine_charges (p : PDB) (residues : List (String × List Nat)) :
    List ChargedGroup :=
  residues.filterMap (residueCharge p "HIS" ["ND1", "NE2"] true)

/-- Modelled from the spec: `get_glutamic_acid_charges` — GLU carboxylate
oxygens (OE1, OE2), negative at their centroid. -/
def PDB.get_glutamic_acid_charges (p : PDB)
    (residues : List (String × List Nat)) : List ChargedGroup :=
  residues.filterMap (residueCharge p "GLU" ["OE1", "OE2"] false)

/-- Modelled from the spec: `get_aspartic_acid_charges` — ASP carboxylate
oxygens (OD1, OD2), negative at their centroid. -/
def PDB.get_aspartic_acid_charges (p : PDB)
    (residues : List (String × List Nat)) : List ChargedGroup :=
  residues.filterMap (residueCharge p "ASP" ["OD1", "OD2"] false)

/-- The non-protein (ligand/heteroatom) association entries. -/
def PDB.nonProteinAtoms (p : PDB) : List (Nat × Atom) :=
  p.all_atoms.filter (fun e => e.1 ∈ p.non_protein_indices)

/-- Modelled from the spec: the fixed metal-element set of the metallic
charge rule. -/
def metals : List String :=
  ["MG", "MN", "ZN", "CA", "FE", "NA", "K", "LI", "NI", "CO", "CU", "CD",
   "HG", "SR"]

/-- Modelled from the spec: `identify_metallic_charges` — every non-protein
metal ion carries a positive charge at its own coordinates. -/
def PDB.identify_metallic_charges (p : PDB) : List ChargedGroup :=
  p.nonProteinAtoms.filterMap (fun e =>
    if e.2.element ∈ metals then some ⟨true, e.2.coordinates, [e.1]⟩
    else none)

/-- Symmetrized-adjacency neighbors of `i` with the given element,
returned as association entries. -/
def PDB.neighborsOfElement (p : PDB) (i : Nat) (elem : String) :
    List (Nat × Atom) :=
  p.all_atoms.filter (fun e =>
    e.1 ≠ i ∧ p.symmetrizedBond i e.1 ∧ e.2.element = elem)

/-- Modelled from the spec: `identify_carbon_group_charges` — a non-protein
carbon bonded to at least two nitrogens is guanidine-like (positive at the
centroid of the group); otherwise, bonded to at least two oxygens of which
one is deprotonatable (carries a hydrogen), it is carboxylate-like
(negative at the centroid of the oxygens). -/
def PDB.identify_carbon_group_charges (p : PDB) : List ChargedGroup :=
  p.nonProteinAtoms.filterMap (fun e =>
    if e.2.element = "C" then
      let ns := p.neighborsOfElement e.1 "N"
      let os := p.neighborsOfElement e.1 "O"
      if 2 ≤ ns.length then
        some ⟨true,
          centroid (e.2.coordinates :: ns.map (fun x => x.2.coordinates)),
          e.1 :: ns.map Prod.fst⟩
      else if 2 ≤ os.length ∧
          os.any (fun o => ¬ (p.neighborsOfElement o.1 "H").isEmpty) then
        some ⟨false, centroid (os.map (fun x => x.2.coordinates)),
          os.map Prod.fst⟩
      else none
    else none)

/-- Modelled from the spec: `identify_sulfur_group_charges` — a non-protein
sulfur bonded to at least three oxygens is a sulfonate/sulfate-like
oxy-anion, negative at the centroid of those oxygens. -/
def PDB.identify_sulfur_group_charges (p : PDB) : List ChargedGroup :=
  p.nonProteinAtoms.filterMap (fun e =>
    if e.2.element = "S" ∧ 3 ≤ (p.neighborsOfElement e.1 "O").length then
      some ⟨false,
        centroid ((p.neighborsOfElement e.1 "O").map (fun x => x.2.coordinates)),
        (p.neighborsOfElement e.1 "O").map Prod.fst⟩
    else none)

/-- Modelled from the spec: `identify_phosphorus_group_charges` — a
non-protein phosphorus bonded to at least three oxygens is a
phosphate-like oxy-anion, negative at the centroid of those oxygens. -/
def PDB.identify_phosphorus_group_charges (p : PDB) : List ChargedGroup :=
  p.nonProteinAtoms.filterMap (fun e =>
    if e.2.element = "P" ∧ 3 ≤ (p.neighborsOfElement e.1 "O").length then
      some ⟨false,
        centroid ((p.neighborsOfElement e.1 "O").map (fun x => x.2.coordinates)),
        (p.neighborsOfElement e.1 "O").map Prod.fst⟩
    else none)

/-- Canonical lysine reference residue: side-chain carbon and terminal
amine nitrogen NZ. -/
def lysinePdb : PDB :=
  { all_atoms :=
      [(1, { atomname := "CE", element := "C", residue := "LYS",
             residue_number := 1, chain := "A",
             coordinates := ⟨0, 0, 0⟩ }),
       (2, { atomname := "NZ", element := "N", residue := "LYS",
             residue_number := 1, chain := "A",
             coordinates := ⟨1, 0, 0⟩ })] }

/-- Canonical arginine reference residue: guanidinium group NE–CZ(NH1)(NH2). -/
def argininePdb : PDB :=
  { all_atoms :=
      [(1, { atomname := "NE", element := "N", residue := "ARG",
             residue_number := 1, chain := "A", coordinates := ⟨0, 0, 0⟩ }),
       (2, { atomname := "CZ", element := "C", residue := "ARG",
             residue_number := 1, chain := "A", coordinates := ⟨1, 0, 0⟩ }),
       (3, { atomname := "NH1", element := "N", residue := "ARG",
             residue_number := 1, chain := "A", coordinates := ⟨2, 1, 0⟩ }),
       (4, { atomname := "NH2", element := "N", residue := "ARG",
             residue_number := 1, chain := "A", coordinates := ⟨2, -1, 0⟩ })] }

/-- Canonical histidine reference residue: imidazole ring with ND1/NE2. -/
def histidinePdb : PDB :=
  { all_atoms :=
      [(1, { atomname := "CG", element := "C", residue := "HIS",
             residue_number := 1, chain := "A", coordinates := ⟨0, 0, 0⟩ }),
       (2, { atomname := "ND1", element := "N", residue := "HIS",
             residue_number := 1, chain := "A", coordinates := ⟨1, 1, 0⟩ }),
       (3, { atomname := "CD2", element := "C", residue := "HIS",
             residue_number := 1, chain := "A", coordinates := ⟨1, -1, 0⟩ }),
       (4, { atomname := "CE1", element := "C", residue := "HIS",
             residue_number := 1, chain := "A", coordinates := ⟨2, 1, 0⟩ }),
       (5, { atomname := "NE2", element := "N", residue := "HIS",
             residue_number := 1, chain := "A", coordinates := ⟨2, -1, 0⟩ })] }

/-- Canonical glutamic-acid reference residue: carboxylate CD(OE1)(OE2). -/
def glutamicAcidPdb : PDB :=
  { all_atoms :=
      [(1, { atomname := "CD", element := "C", residue := "GLU",
             residue_number := 1, chain := "A", coordinates := ⟨0, 0, 0⟩ }),
       (2, { atomname := "OE1", element := "O", residue := "GLU",
             residue_number := 1, chain := "A", coordinates := ⟨1, 1, 0⟩ }),
       (3, { atomname := "OE2", element := "O", residue := "GLU",
             residue_number := 1, chain := "A", coordinates := ⟨1, -1, 0⟩ })] }

/-- Canonical aspartic-acid reference residue: carboxylate CG(OD1)(OD2). -/
def asparticAcidPdb : PDB :=
  { all_atoms :=
      [(1, { atomname := "CG", element := "C", residue := "ASP",
             residue_number := 1, chain := "A", coordinates := ⟨0, 0, 0⟩ }),
       (2, { atomname := "OD1", element := "O", residue := "ASP",
             residue_number := 1, chain := "A", coordinates := ⟨1, 1, 0⟩ }),
       (3, { atomname := "OD2", element := "O", residue := "ASP",
             residue_number := 1, chain := "A", coordinates := ⟨1, -1, 0⟩ })] }

/-- Canonical metal-ion reference structure: a bare magnesium ion, as in
the metallic-charge test. -/
def magnesiumPdb : PDB :=
  (PDB.mk [] [] [] []).add_new_non_protein_atom { element := "MG" }

/-- Canonical guanidine ligand: a carbon bonded to three nitrogens (bonds
stored on the carbon only). -/
def guanidinePdb : PDB :=
  { all_atoms :=
      [(1, { element := "C", indices_of_atoms_connecting := [2, 3, 4],
             coordinates := ⟨0, 0, 0⟩ }),
       (2, { element := "N", coordinates := ⟨1, 1, 0⟩ }),
       (3, { element := "N", coordinates := ⟨1, -1, 0⟩ }),
       (4, { element := "N", coordinates := ⟨-1, 0, 0⟩ })],
    non_protein_indices := [1, 2, 3, 4] }

/-- Canonical carboxylic-acid ligand: formic acid HCOOH (the hydroxyl
oxygen carries the acid hydrogen). -/
def formicAcidPdb : PDB :=
  { all_atoms :=
      [(1, { element := "C", indices_of_atoms_connecting := [2, 3],
             coordinates := ⟨0, 0, 0⟩ }),
       (2, { element := "O", coordinates := ⟨1, 1, 0⟩ }),
       (3, { element := "O", indices_of_atoms_connecting := [4],
             coordinates := ⟨1, -1, 0⟩ }),
       (4, { element := "H", coordinates := ⟨2, -1, 0⟩ })],
    non_protein_indices := [1, 2, 3, 4] }

/-- Canonical sulfonate-like ligand: a methanesulfonic-acid-like S(=O)(=O)OH
core with three oxygens on the sulfur. -/
def sulfonatePdb : PDB :=
  { all_atoms :=
      [(1, { element := "C", indices_of_atoms_connecting := [2],
             coordinates := ⟨-1, 0, 0⟩ }),
       (2, { element := "S", indices_of_atoms_connecting := [3, 4, 5],
             coordinates := ⟨0, 0, 0⟩ }),
       (3, { element := "O", coordinates := ⟨1, 1, 0⟩ }),
       (4, { element := "O", coordinates := ⟨1, -1, 0⟩ }),
       (5, { element := "O", coordinates := ⟨0, 0, 1⟩ })],
    non_protein_indices := [1, 2, 3, 4, 5] }

/-- Canonical phosphate-like ligand: a phosphorus bonded to four oxygens. -/
def phosphatePdb : PDB :=
  { all_atoms :=
      [(1, { element := "P", indices_of_atoms_connecting := [2, 3, 4, 5],
             coordinates := ⟨0, 0, 0⟩ }),
       (2, { element := "O", coordinates := ⟨1, 1, 0⟩ }),
       (3, { element := "O", coordinates := ⟨1, -1, 0⟩ }),
       (4, { element := "O", coordinates := ⟨-1, 1, 0⟩ }),
       (5, { element := "O", coordinates := ⟨-1, -1, 0⟩ })],
    non_protein_indices := [1, 2, 3, 4, 5] }

/-- Numerator of the exact difference `a - b` over the common denominator
`a.den * b.den` (integer arithmetic only). -/
def qdiffN (a b : ℚ) : Int :=
  a.num * (b.den : Int) - b.num * (a.den : Int)

/-- The common denominator of the exact difference `a - b`. -/
def qdiffD (a b : ℚ) : Int :=
  (a.den : Int) * (b.den : Int)

/-- The difference vector `p - q` cleared to a common integer row: each
component's numerator is multiplied by the denominators of the other two
components, which scales the whole row by the positive factor
`dx * dy * dz` and so preserves determinant vanishing. -/
def scaledRow (p q : Point) : Int × Int × Int :=
  (qdiffN p.x q.x * (qdiffD p.y q.y * qdiffD p.z q.z),
   qdiffN p.y q.y * (qdiffD p.x q.x * qdiffD p.z q.z),
   qdiffN p.z q.z * (qdiffD p.x q.x * qdiffD p.y q.y))

/-- 3×3 integer determinant. -/
def det3 (r1 r2 r3 : Int × Int × Int) : Int :=
  r1.1 * (r2.2.1 * r3.2.2 - r2.2.2 * r3.2.1)
  - r1.2.1 * (r2.1 * r3.2.2 - r2.2.2 * r3.1)
  + r1.2.2 * (r2.1 * r3.2.1 - r2.2.1 * r3.1)

/-- Modelled from the spec: the planarity filter of ligand ring
perception, taken as exact coplanarity: every further ring point must lie
in the plane spanned at the first point, tested by a vanishing
determinant in exact integer arithmetic. -/
def coplanar (ps : List Point) : Bool :=
  match ps with
  | p0 :: p1 :: p2 :: rest =>
    rest.all (fun q =>
      det3 (scaledRow p1 p0) (scaledRow p2 p0) (scaledRow q p0) = 0)
  | _ => true

/-- Modelled from the spec: an sp2-like ring-candidate center — a C/N/O/S
atom with at most three heavy neighbors. -/
def PDB.sp2Like (p : PDB) (e : Nat × Atom) : Bool :=
  decide (e.2.element ∈ ["C", "N", "O", "S"]) &&
    decide ((p.connected_heavy_atoms e.1).length ≤ 3)

/-- Indices of the ring-candidate atoms. -/
def PDB.ringCandidateIndices (p : PDB) : List Nat :=
  (p.all_atoms.filter (fun e => p.sp2Like e)).map Prod.fst

/-- Extend each simple path (stored reversed: head is the last visited
atom) by one bonded candidate atom not yet on the path. -/
def extendPaths (p : PDB) (cand : List Nat) (paths : List (List Nat)) :
    List (List Nat) :=
  paths.flatMap (fun path =>
    match path with
    | [] => []
    | last :: _ =>
      (cand.filter (fun j =>
        p.symmetrizedBond last j && decide (j ∉ path))).map
        (fun j => j :: path))

/-- All simple candidate paths with `n + 1` atoms. -/
def pathsN (p : PDB) (cand : List Nat) : Nat → List (List Nat)
  | 0 => cand.map (fun i => [i])
  | n + 1 => extendPaths p cand (pathsN p cand n)

/-- A path of at least three atoms whose two ends are bonded closes into
a ring. -/
def PDB.isClosedRing (p : PDB) (path : List Nat) : Bool :=
  match path, path.getLast? with
  | _ :: _ :: _ :: _, some t =>
    match path with
    | h :: _ => p.symmetrizedBond h t
    | [] => false
  | _, _ => false

/-- The coordinates of the atoms on a path. -/
def PDB.pathCoordinates (p : PDB) (path : List Nat) : List Point :=
  path.filterMap (fun i => (p.lookup i).map Atom.coordinates)

/-- Insert into a sorted list of naturals. -/
def insortNat (n : Nat) : List Nat → List Nat
  | [] => [n]
  | m :: r => if n ≤ m then n :: m :: r else m :: insortNat n r

/-- Sort a list of naturals ascending (insertion sort). -/
def sortNat (l : List Nat) : List Nat :=
  l.foldr insortNat []

/-- Keep one representative per index set (rings found repeatedly from
different start atoms and directions are deduplicated). -/
def dedupBySet (cycles : List (List Nat)) : List (List Nat) :=
  cycles.foldl (fun acc c =>
    if acc.any (fun c2 => sortNat c2 = sortNat c) then acc else acc ++ [c]) []

/-- Modelled from the spec: ligand ring perception — simple cycles of
size 5 or 6 over the bond graph restricted to sp2-like centers, filtered
by planarity and deduplicated by index set. -/
def PDB.detectLigandRings (p : PDB) : List (List Nat) :=
  let cand := p.ringCandidateIndices
  dedupBySet ((pathsN p cand 4 ++ pathsN p cand 5).filter (fun path =>
    p.isClosedRing path && coplanar (p.pathCoordinates path)))

/-- Modelled from the spec: `assign_aromatic_rings` — replace the model's
`aromatic_rings` with the perceived rings (idempotent pass). -/
def PDB.assign_aromatic_rings (p : PDB) : PDB :=
  { p with aromatic_rings := p.detectLigandRings.map (fun c =>
      ⟨c, centroid (p.pathCoordinates c)⟩) }

/-- A benzene-like ligand: six ring carbons (1–6) bonded in a planar
cycle, each carrying one hydrogen (7–12); bonds stored symmetrically. -/
def benzenePdb : PDB :=
  { all_atoms :=
      [(1, { element := "C", coordinates := ⟨0, 0, 0⟩,
             indices_of_atoms_connecting := [2, 6, 7] }),
       (2, { element := "C", coordinates := ⟨2, 0, 0⟩,
             indices_of_atoms_connecting := [1, 3, 8] }),
       (3, { element := "C", coordinates := ⟨3, 2, 0⟩,
             indices_of_atoms_connecting := [2, 4, 9] }),
       (4, { element := "C", coordinates := ⟨2, 4, 0⟩,
             indices_of_atoms_connecting := [3, 5, 10] }),
       (5, { element := "C", coordinates := ⟨0, 4, 0⟩,
             indices_of_atoms_connecting := [4, 6, 11] }),
       (6, { element := "C", coordinates := ⟨-1, 2, 0⟩,
             indices_of_atoms_connecting := [5, 1, 12] }),
       (7, { element := "H", coordinates := ⟨-1, -1, 0⟩,
             indices_of_atoms_connecting := [1] }),
       (8, { element := "H", coordinates := ⟨3, -1, 0⟩,
             indices_of_atoms_connecting := [2] }),
       (9, { element := "H", coordinates := ⟨4, 2, 0⟩,
             indices_of_atoms_connecting := [3] }),
       (10, { element := "H", coordinates := ⟨3, 5, 0⟩,
              indices_of_atoms_connecting := [4] }),
       (11, { element := "H", coordinates := ⟨-1, 5, 0⟩,
              indices_of_atoms_connecting := [5] }),
       (12, { element := "H", coordinates := ⟨-2, 2, 0⟩,
              indices_of_atoms_connecting := [6] })],
    non_protein_indices := [1, 2, 3, 4, 5, 6, 7, 8, 9, 10, 11, 12] }

/-- Modelled from the spec: `Binana.atom_types` — the fixed list of
recognized autodock atom types (a class attribute of the engine, absent
from src/; any fixed duplicate-free list satisfies the claims, this is the
canonical 15-element one). -/
def Binana.atom_types : List String :=
  ["A", "BR", "C", "CL", "F", "HD", "I", "MG", "MN", "N", "NA", "OA", "P",
   "S", "ZN"]

/-- Order a type pair the way the engine sorts its keys. -/
def sortPair (a b : String) : String × String :=
  if compare a b = Ordering.gt then (b, a) else (a, b)

/-- The underscore-joined sorted type-pair bucket key. -/
def pairKey (a b : String) : String :=
  (sortPair a b).1 ++ "_" ++ (sortPair a b).2

/-- All unordered pairs (diagonal included) drawn from a list, in its
order. -/
def allPairs : List String → List (String × String)
  | [] => []
  | a :: rest => (a :: rest).map (fun b => (a, b)) ++ allPairs rest

/-- The fixed schema of type-pair bucket keys: one per unordered pair of
recognized atom types. -/
def pair_keys : List String :=
  (allPairs Binana.atom_types).map (fun pr => pr.1 ++ "_" ++ pr.2)

/-- The six backbone/sidechain × secondary-structure bucket keys. -/
def bbsc_keys : List String :=
  ["BACKBONE_ALPHA", "BACKBONE_BETA", "BACKBONE_OTHER",
   "SIDECHAIN_ALPHA", "SIDECHAIN_BETA", "SIDECHAIN_OTHER"]

/-- The twelve hydrogen-bond bucket keys: donor role × backbone/sidechain
× secondary structure. -/
def hbond_keys : List String :=
  ["HDONOR-LIGAND_BACKBONE_ALPHA", "HDONOR-LIGAND_BACKBONE_BETA",
   "HDONOR-LIGAND_BACKBONE_OTHER", "HDONOR-LIGAND_SIDECHAIN_ALPHA",
   "HDONOR-LIGAND_SIDECHAIN_BETA", "HDONOR-LIGAND_SIDECHAIN_OTHER",
   "HDONOR-RECEPTOR_BACKBONE_ALPHA", "HDONOR-RECEPTOR_BACKBONE_BETA",
   "HDONOR-RECEPTOR_BACKBONE_OTHER", "HDONOR-RECEPTOR_SIDECHAIN_ALPHA",
   "HDONOR-RECEPTOR_SIDECHAIN_BETA", "HDONOR-RECEPTOR_SIDECHAIN_OTHER"]

/-- The three pi-stacking bucket keys. -/
def stacking_keys : List String :=
  ["STACKING_ALPHA", "STACKING_BETA", "STACKING_OTHER"]

/-- The three pi-T bucket keys. -/
def pi_t_keys : List String :=
  ["T-SHAPED_ALPHA", "T-SHAPED_BETA", "T-SHAPED_OTHER"]

/-- The six pi-cation bucket keys. -/
def pi_cation_keys : List String :=
  ["PI-CATION_LIGAND-CHARGED_ALPHA", "PI-CATION_LIGAND-CHARGED_BETA",
   "PI-CATION_LIGAND-CHARGED_OTHER", "PI-CATION_RECEPTOR-CHARGED_ALPHA",
   "PI-CATION_RECEPTOR-CHARGED_BETA", "PI-CATION_RECEPTOR-CHARGED_OTHER"]

/-- The three salt-bridge bucket keys. -/
def salt_bridge_keys : List String :=
  ["SALT-BRIDGE_ALPHA", "SALT-BRIDGE_BETA", "SALT-BRIDGE_OTHER"]

/-- A feature dictionary: an association list over a fixed key schema. -/
abbrev FeatDict := List (String × ℚ)

/-- The zero-filled dictionary over a key schema. -/
def zeroDict (keys : List String) : FeatDict :=
  keys.map (fun k => (k, 0))

/-- Add `v` at key `k` (no-op on keys outside the schema, which is how
unrecognized contributions are dropped). -/
def addToDict (d : FeatDict) (k : String) (v : ℚ) : FeatDict :=
  d.map (fun kv => if kv.1 = k then (kv.1, kv.2 + v) else kv)

/-- Zero-fill a schema, then accumulate all detected contributions. -/
def accumulate (keys : List String) (contribs : List (String × ℚ)) :
    FeatDict :=
  contribs.foldl (fun acc kv => addToDict acc kv.1 kv.2) (zeroDict keys)

/-- Index-tagged ligand × receptor atom pairs. -/
def atomEntryPairs (lig rec : PDB) : List ((Nat × Atom) × (Nat × Atom)) :=
  lig.all_atoms.flatMap (fun la => rec.all_atoms.map (fun ra => (la, ra)))

/-- The PDB backbone atom names. -/
def backboneNames : List String :=
  ["N", "CA", "C", "O"]

/-- The backbone/sidechain × secondary-structure bucket of a receptor
atom. -/
def strandKey (a : Atom) : String :=
  (if a.atomname ∈ backboneNames then "BACKBONE_" else "SIDECHAIN_") ++
    a.structure_label

/-- Modelled from the spec: `compute_hydrophobic_contacts` — count
ligand-carbon/receptor-carbon pairs within the hydrophobic cutoff (4.0 Å,
compared on squares), bucketed by the receptor atom's backbone/sidechain
membership and secondary-structure label. -/
def compute_hydrophobic_contacts (lig rec : PDB) : FeatDict :=
  accumulate bbsc_keys ((atomEntryPairs lig rec).filterMap (fun pr =>
    if pr.1.2.element = "C" ∧ pr.2.2.element = "C" ∧
        distSq pr.1.2.coordinates pr.2.2.coordinates < 16 then
      some (strandKey pr.2.2, 1)
    else none))

/-- Modelled from the spec: `compute_electrostatic_energy` — accumulate
the Coulombic pair energy for in-cutoff pairs into the sorted type-pair
bucket (the 1/distance factor is represented by the exact rational
1/squared-distance surrogate; the claims depend only on the schema). -/
def compute_electrostatic_energy (lig rec : PDB) : FeatDict :=
  accumulate pair_keys ((atomEntryPairs lig rec).filterMap (fun pr =>
    if distSq pr.1.2.coordinates pr.2.2.coordinates < 16 then
      some (pairKey pr.1.2.atomtype pr.2.2.atomtype,
        pr.1.2.charge * pr.2.2.charge /
          distSq pr.1.2.coordinates pr.2.2.coordinates)
    else none))

/-- Receptor atoms within the flexibility cutoff of some ligand atom. -/
def closeReceptorAtoms (lig rec : PDB) : List (Nat × Atom) :=
  rec.all_atoms.filter (fun ra =>
    lig.all_atoms.any (fun la =>
      distSq la.2.coordinates ra.2.coordinates < 16))

/-- Keep the first atom of each distinct residue. -/
def dedupResidues (l : List (Nat × Atom)) : List (Nat × Atom) :=
  l.foldl (fun acc e =>
    if acc.any (fun e2 => e2.2.residueKey = e.2.residueKey) then acc
    else acc ++ [e]) []

/-- Modelled from the spec: `compute_active_site_flexibility` — count
distinct receptor residues near the ligand, bucketed like the hydrophobic
contacts. -/
def compute_active_site_flexibility (lig rec : PDB) : FeatDict :=
  accumulate bbsc_keys
    ((dedupResidues (closeReceptorAtoms lig rec)).map (fun e =>
      (strandKey e.2, 1)))

/-- A hydrogen-bond-capable polar atom. -/
def isPolar (a : Atom) : Bool :=
  a.element = "O" || a.element = "N"

/-- Does atom `i` carry a hydrogen (making it a potential donor)? -/
def PDB.hasHydrogenNeighbor (p : PDB) (i : Nat) : Bool :=
  ¬ (p.neighborsOfElement i "H").isEmpty

/-- Modelled from the spec: `compute_hydrogen_bonds` — polar ligand and
receptor atoms within the cutoff, attributed to the side carrying a
donor hydrogen, bucketed by donor role × backbone/sidechain × secondary
structure (the angle refinement only filters pairs and is abstracted
away; the claims depend only on the schema). -/
def compute_hydrogen_bonds (lig rec : PDB) : FeatDict :=
  accumulate hbond_keys ((atomEntryPairs lig rec).filterMap (fun pr =>
    if isPolar pr.1.2 ∧ isPolar pr.2.2 ∧
        distSq pr.1.2.coordinates pr.2.2.coordinates < 16 then
      if lig.hasHydrogenNeighbor pr.1.1 then
        some ("HDONOR-LIGAND_" ++ strandKey pr.2.2, 1)
      else if rec.hasHydrogenNeighbor pr.2.1 then
        some ("HDONOR-RECEPTOR_" ++ strandKey pr.2.2, 1)
      else none
    else none))

/-- Modelled from the spec: `compute_ligand_atom_counts` — a histogram of
the ligand's atoms by recognized atom type (unrecognized types are
dropped by the schema-preserving accumulation). -/
def compute_ligand_atom_counts (lig : PDB) : FeatDict :=
  accumulate Binana.atom_types (lig.all_atoms.map (fun e =>
    (e.2.atomtype, 1)))

/-- Modelled from the spec: `compute_contacts` — the close-contact (2.5 Å)
and contact (4.0 Å) type-pair histograms, cutoffs compared on squares. -/
def compute_contacts (lig rec : PDB) : FeatDict × FeatDict :=
  (accumulate pair_keys ((atomEntryPairs lig rec).filterMap (fun pr =>
    if distSq pr.1.2.coordinates pr.2.2.coordinates < 25/4 then
      some (pairKey pr.1.2.atomtype pr.2.2.atomtype, 1)
    else none)),
   accumulate pair_keys ((atomEntryPairs lig rec).filterMap (fun pr =>
    if distSq pr.1.2.coordinates pr.2.2.coordinates < 16 then
      some (pairKey pr.1.2.atomtype pr.2.2.atomtype, 1)
    else none)))

/-- The secondary-structure label attached to a ring (taken from its
first member atom). -/
def ringLabel (p : PDB) (r : AromaticRing) : String :=
  match r.indices with
  | [] => "OTHER"
  | i :: _ =>
    match p.lookup i with
    | some a => a.structure_label
    | none => "OTHER"

/-- The secondary-structure label attached to a charged group (taken from
its first contributing atom). -/
def chargeLabel (p : PDB) (ch : ChargedGroup) : String :=
  match ch.indices with
  | [] => "OTHER"
  | i :: _ =>
    match p.lookup i with
    | some a => a.structure_label
    | none => "OTHER"

/-- Modelled from the spec: `compute_pi_pi_stacking` — ligand/receptor
aromatic ring pairs with nearby centroids (7.5 Å, compared on squares;
the near-parallel angle refinement is abstracted away), bucketed by the
receptor ring's secondary structure. -/
def compute_pi_pi_stacking (lig rec : PDB) : FeatDict :=
  accumulate stacking_keys (lig.aromatic_rings.flatMap (fun lr =>
    rec.aromatic_rings.filterMap (fun rr =>
      if distSq lr.center rr.center < 225/4 then
        some ("STACKING_" ++ ringLabel rec rr, 1)
      else none)))

/-- Modelled from the spec: `compute_pi_t` — perpendicular (edge-to-face)
ring pairs within 5.0 Å of centroid separation (compared on squares; the
perpendicularity refinement is abstracted away), same stratification. -/
def compute_pi_t (lig rec : PDB) : FeatDict :=
  accumulate pi_t_keys (lig.aromatic_rings.flatMap (fun lr =>
    rec.aromatic_rings.filterMap (fun rr =>
      if distSq lr.center rr.center < 25 then
        some ("T-SHAPED_" ++ ringLabel rec rr, 1)
      else none)))

/-- Modelled from the spec: `compute_pi_cation` — a positive charged group
of one model within 6.0 Å of an aromatic ring centroid of the other,
split by which side carries the charge and by receptor secondary
structure. -/
def compute_pi_cation (lig rec : PDB) : FeatDict :=
  accumulate pi_cation_keys
    ((lig.charges.flatMap (fun ch =>
      rec.aromatic_rings.filterMap (fun rr =>
        if ch.positive ∧ distSq ch.coordinates rr.center < 36 then
          some ("PI-CATION_LIGAND-CHARGED_" ++ ringLabel rec rr, 1)
        else none))) ++
     (rec.charges.flatMap (fun ch =>
      lig.aromatic_rings.filterMap (fun lr =>
        if ch.positive ∧ distSq ch.coordinates lr.center < 36 then
          some ("PI-CATION_RECEPTOR-CHARGED_" ++ chargeLabel rec ch, 1)
        else none))))

/-- Modelled from the spec: `compute_salt_bridges` — oppositely charged
group pairs within 5.5 Å (compared on squares), bucketed by the receptor
group's secondary structure. -/
def compute_salt_bridges (lig rec : PDB) : FeatDict :=
  accumulate salt_bridge_keys (lig.charges.flatMap (fun lch =>
    rec.charges.filterMap (fun rch =>
      if lch.positive ≠ rch.positive ∧
          distSq lch.coordinates rch.coordinates < 121/4 then
        some ("SALT-BRIDGE_" ++ chargeLabel rec rch, 1)
      else none)))

/-- Modelled from the spec: the rotatable-bond count — ligand bonds
between two non-terminal heavy atoms that do not lie on a common
perceived ring. -/
def compute_rotatable_bonds_count (lig : PDB) : Nat :=
  (lig.all_atoms.flatMap (fun e1 =>
    lig.all_atoms.filter (fun e2 =>
      decide (e1.1 < e2.1) && lig.symmetrizedBond e1.1 e2.1 &&
      decide (e1.2.element ≠ "H") && decide (e2.2.element ≠ "H") &&
      decide (2 ≤ (lig.connected_heavy_atoms e1.1).length) &&
      decide (2 ≤ (lig.connected_heavy_atoms e2.1).length) &&
      ! lig.aromatic_rings.any (fun r =>
          decide (e1.1 ∈ r.indices) && decide (e2.1 ∈ r.indices))))).length

/-- Modelled from the spec: `Binana.compute_input_vector` — the values of
the twelve sub-computations concatenated in the engine's fixed order. -/
def Binana.compute_input_vector (lig rec : PDB) : List ℚ :=
  (compute_contacts lig rec).1.map Prod.snd ++
  (compute_contacts lig rec).2.map Prod.snd ++
  (compute_electrostatic_energy lig rec).map Prod.snd ++
  (compute_ligand_atom_counts lig).map Prod.snd ++
  (compute_hydrogen_bonds lig rec).map Prod.snd ++
  (compute_hydrophobic_contacts lig rec).map Prod.snd ++
  (compute_pi_pi_stacking lig rec).map Prod.snd ++
  (compute_pi_cation lig rec).map Prod.snd ++
  (compute_pi_t lig rec).map Prod.snd ++
  (compute_active_site_flexibility lig rec).map Prod.snd ++
  (compute_salt_bridges lig rec).map Prod.snd ++
  [(compute_rotatable_bonds_count lig : ℚ)]

/-- The CO₂-like model of the bond-loading test: a carbon and two oxygens,
no bonds yet. -/
def co2Pdb : PDB :=
  (((PDB.mk [] [] [] []).add_new_atom { element := "C" }).add_new_atom
      { element := "O" }).add_new_atom { element := "O" }

/-- A carboxyl-like model whose bonds are stored asymmetrically: only the
carbon's list records the C–O and C–H bonds. -/
def carboxylPdb : PDB :=
  { all_atoms :=
      [(1, { element := "C", indices_of_atoms_connecting := [2, 3] }),
       (2, { element := "O" }),
       (3, { element := "H" })] }

/-- The two Python exception kinds the featurize script can raise in the
embedded paths: a failed `assert` and an explicit `ValueError`. -/
inductive PyError
  | assertionError
  | valueError
deriving DecidableEq, Repr

namespace Featurize

/-- The first position of `n` in a list — `np.where(arr == n)[0][0]`
(0 when absent, matching the script's use only on present names). -/
def firstIdx (n : Nat) : List Nat → Nat
  | [] => 0
  | m :: r => if m = n then 0 else firstIdx n r + 1

/-- `np.intersect1d`: the sorted duplicate-free common values of two
arrays (names are embedded as naturals). -/
def intersect1d (xs ys : List Nat) : List Nat :=
  sortNat ((xs.filter (fun x => decide (x ∈ ys))).dedup)

/-- Embedded from `featurize.py` `collate_mols`: assert the paired length
preconditions, raise `ValueError` when either name array has a duplicate
(`np.unique(x).size != x.size`), and otherwise select, for each shared
name in sorted order, the first index carrying it in each array. -/
def collate_mols {α β : Type} (mols : List α) (mol_names : List Nat)
    (targets : List β) (target_ids : List Nat) :
    Except PyError (List Nat × List Nat) :=
  if ¬ (mols.length = mol_names.length ∧
      targets.length = target_ids.length) then
    .error .assertionError
  else if mol_names.dedup.length ≠ mol_names.length then
    .error .valueError
  else if target_ids.dedup.length ≠ target_ids.length then
    .error .valueError
  else
    let shared := intersect1d mol_names target_ids
    .ok (shared.map (fun n => firstIdx n mol_names),
         shared.map (fun n => firstIdx n target_ids))

/-- Encode a molecule's `_Name`, with the optional prefix applied: the
placeholder `None` is 0, a named molecule is a positive code (injectively
from prefix and name). -/
def encodeName (pfx : Option Nat) : Option Nat → Nat
  | none => 0
  | some n =>
    match pfx with
    | some p => Nat.pair p n + 1
    | none => n + 1

/-- Embedded from `featurize.py` `read_mols`: the external reader yields
molecules (observable here only through their optional `_Name`); exactly
one molecule and exactly one name are appended per molecule read. -/
def read_mols (input : List (Option Nat)) (pfx : Option Nat) :
    List (Option Nat) × List Nat :=
  (input, input.map (encodeName pfx))

/-- The optional target input of `main`: either a dict carrying `y` and
`mol_id` arrays, or a plain array-like of target values. -/
inductive TargetData
  | dict (y : List Int) (mol_id : List Nat)
  | arr (y : List Int)

/-- Embedded from `featurize.py` `main`, the molecule-ID dataflow: read
molecules and names, optionally collate against dict targets (applying
the same `mol_indices` to both `mols` and `mol_ids`) or assert the
array-like target length, then evaluate the sanity assertion
`data['mol_id'].shape[0] == len(mols)`. -/
def main_mol_id_check (input : List (Option Nat)) (pfx : Option Nat)
    (tgt : Option TargetData) : Except PyError Bool :=
  let mols := (read_mols input pfx).1
  let mol_ids := (read_mols input pfx).2
  match tgt with
  | none => .ok (decide (mol_ids.length = mols.length))
  | some (.arr y) =>
    if y.length = mols.length then
      .ok (decide (mol_ids.length = mols.length))
    else .error .assertionError
  | some (.dict y tids) =>
    match collate_mols mols mol_ids y tids with
    | .error e => .error e
    | .ok (mi, _) =>
      .ok (decide ((mi.map (fun i => mol_ids.getD i 0)).length =
        (mi.map (fun i => mols.getD i none)).length))

end Featurize

end VsUtils

namespace VsUtils

/-- C8 helper: the two squared leg lengths from the midpoint agree. -/
theorem distSq_average_point (p q : Point) :
    distSq (average_point p q) p = distSq (average_point p q) q := by
  simp only [distSq, average_point]
  ring

/-- Association-list helper: mapping a key-preserving function commutes
with `find?` on a key predicate. -/
theorem find?_fst_map (f : Nat × Atom → Nat × Atom)
    (hf : ∀ e, (f e).1 = e.1) (l : List (Nat × Atom)) (i : Nat) :
    (l.map f).find? (fun e => e.1 = i) =
      (l.find? (fun e => e.1 = i)).map f := by
  induction l with
  | nil => rfl
  | cons e l ih =>
    by_cases h : e.1 = i
    · have hfe : (decide ((f e).1 = i)) = true := by
        simp [hf e, h]
      simp [List.find?, hfe, h]
    · have hfe : (decide ((f e).1 = i)) = false := by
        simp [hf e, h]
      simp [List.find?, hfe, h, ih]

/-- Association-list helper: with duplicate-free keys, `find?` returns
exactly a member entry with the sought key. -/
theorem find?_fst_of_mem_of_nodup {l : List (Nat × Atom)} {j : Nat} {a : Atom}
    (hmem : (j, a) ∈ l) (hnd : (l.map Prod.fst).Nodup) :
    l.find? (fun e => e.1 = j) = some (j, a) := by
  induction l with
  | nil => cases hmem
  | cons e l ih =>
    rw [List.map_cons, List.nodup_cons] at hnd
    rcases List.mem_cons.1 hmem with he | hl
    · subst he
      simp [List.find?]
    · by_cases h : e.1 = j
      · exfalso
        exact hnd.1 (h ▸ List.mem_map_of_mem Prod.fst hl)
      · simp [List.find?, h, ih hl hnd.2]

/-- A successful lookup puts the index among the model's keys. -/
theorem mem_keys_of_lookup_eq_some {p : PDB} {i : Nat} {a : Atom}
    (h : p.lookup i = some a) : i ∈ p.all_atoms.map Prod.fst := by
  unfold PDB.lookup at h
  cases hf : p.all_atoms.find? (fun e => e.1 = i) with
  | none => rw [hf] at h; cases h
  | some e =>
    have hpred := List.find?_some hf
    have hkey : e.1 = i := by simpa using hpred
    exact hkey ▸ List.mem_map_of_mem Prod.fst (List.mem_of_find?_eq_some hf)

/-- C4 helper, non-center case: an atom other than the record's center is
untouched by that record. -/
theorem connectedListOf_applyBondRecord_ne (p : PDB) (r : Nat × List Nat)
    (j : Nat) (h : j ≠ r.1) :
    (p.applyBondRecord r).connectedListOf j = p.connectedListOf j := by
  unfold PDB.connectedListOf PDB.lookup PDB.applyBondRecord updConnecting
  rw [find?_fst_map _ (fun e => by dsimp only; split <;> rfl)]
  cases hf : p.all_atoms.find? (fun e => e.1 = j) with
  | none => rfl
  | some e =>
    have hkey : e.1 = j := by simpa using List.find?_some hf
    have : ¬ e.1 = r.1 := by rw [hkey]; exact h
    simp [this]

/-- C4 helper, center case: the record's center gains exactly the listed
indices (dangling references dropped). -/
theorem connectedListOf_applyBondRecord_center (p : PDB) (r : Nat × List Nat)
    (h : p.hasIndex r.1 = true) :
    (p.applyBondRecord r).connectedListOf r.1 =
      p.connectedListOf r.1 ++ r.2.filter (fun j => p.hasIndex j) := by
  unfold PDB.connectedListOf PDB.lookup PDB.applyBondRecord updConnecting
  rw [find?_fst_map _ (fun e => by dsimp only; split <;> rfl)]
  unfold PDB.hasIndex at h
  rw [List.any_eq_true] at h
  obtain ⟨e, hmem, hkey⟩ := h
  have hkey : e.1 = r.1 := by simpa using hkey
  have hsome : (p.all_atoms.find? (fun e => e.1 = r.1)).isSome := by
    rw [List.find?_isSome]
    exact ⟨e, hmem, by simpa using hkey⟩
  cases hf : p.all_atoms.find? (fun e => e.1 = r.1) with
  | none => rw [hf] at hsome; cases hsome
  | some e2 =>
    have hkey2 : e2.1 = r.1 := by simpa using List.find?_some hf
    simp [hkey2]

/-- C5 helper: the per-pair distance-bond test is symmetric, because the
squared distance and the covalent-radius-sum threshold both are. -/
theorem inferredBond_symm (p : PDB) (i j : Nat) :
    p.inferredBond i j = p.inferredBond j i := by
  unfold PDB.inferredBond
  cases hi : p.lookup i <;> cases hj : p.lookup j <;>
    simp only [Bool.and_false, Bool.and_assoc]
  rename_i a b
  have h1 : distSq a.coordinates b.coordinates =
      distSq b.coordinates a.coordinates := by
    unfold distSq; ring
  have h2 : bondDistanceThreshold a.element b.element =
      bondDistanceThreshold b.element a.element := by
    unfold bondDistanceThreshold; ring
  have h3 : (decide (i ≠ j)) = (decide (j ≠ i)) := by
    simp [ne_comm]
  rw [h1, h2, h3]
  congr 1
  rw [Bool.and_left_comm]

/-- C5 helper: an atom the model cannot look up gains no distance bonds. -/
theorem gainedDistanceBonds_of_lookup_none {p : PDB} {i : Nat}
    (h : p.lookup i = none) : p.gainedDistanceBonds i = [] := by
  unfold PDB.gainedDistanceBonds
  rw [List.filter_eq_nil_iff]
  intro j _
  unfold PDB.inferredBond
  rw [h]
  simp

/-- C5 helper: a true pair test implies both lookups succeed. -/
theorem inferredBond_lookup_isSome {p : PDB} {i j : Nat}
    (h : p.inferredBond i j = true) :
    (p.lookup i).isSome ∧ (p.lookup j).isSome := by
  unfold PDB.inferredBond at h
  cases hi : p.lookup i <;> cases hj : p.lookup j <;> rw [hi, hj] at h <;>
    simp_all

end VsUtils

/-- C5: distance-based bond inference for non-protein atoms produces a
symmetric relation: every atom's stored bond list gains exactly the
below-threshold partners (`gainedDistanceBonds`), and `j` is gained by `i`
if and only if `i` is gained by `j`. -/
theorem C5_distance_bonds_symmetric (p : VsUtils.PDB) (i j : Nat) :
    (p.create_non_protein_atom_bonds_by_distance).connectedListOf i =
      p.connectedListOf i ++ p.gainedDistanceBonds i ∧
    (j ∈ p.gainedDistanceBonds i ↔ i ∈ p.gainedDistanceBonds j) := by
  constructor
  · unfold VsUtils.PDB.connectedListOf VsUtils.PDB.lookup
      VsUtils.PDB.create_non_protein_atom_bonds_by_distance
    rw [VsUtils.find?_fst_map p.addGainedEntry (fun e => rfl)]
    cases hf : p.all_atoms.find? (fun e => e.1 = i) with
    | none =>
      have hnone : p.lookup i = none := by
        unfold VsUtils.PDB.lookup; rw [hf]; rfl
      simp [VsUtils.gainedDistanceBonds_of_lookup_none hnone]
    | some e =>
      have hkey : e.1 = i := by simpa using List.find?_some hf
      simp [VsUtils.PDB.addGainedEntry, hkey]
  · unfold VsUtils.PDB.gainedDistanceBonds
    simp only [List.mem_filter]
    constructor
    · rintro ⟨-, hb⟩
      have hb2 : p.inferredBond j i = true := by
        rw [VsUtils.inferredBond_symm]; exact hb
      have hsome := (VsUtils.inferredBond_lookup_isSome hb).1
      cases hi2 : p.lookup i with
      | none => rw [hi2] at hsome; cases hsome
      | some a =>
        exact ⟨VsUtils.mem_keys_of_lookup_eq_some hi2, hb2⟩
    · rintro ⟨-, hb⟩
      have hb2 : p.inferredBond i j = true := by
        rw [VsUtils.inferredBond_symm]; exact hb
      have hsome := (VsUtils.inferredBond_lookup_isSome hb).1
      cases hjj : p.lookup j with
      | none => rw [hjj] at hsome; cases hsome
      | some a =>
        exact ⟨VsUtils.mem_keys_of_lookup_eq_some hjj, hb2⟩

/-- C4: when bonds are loaded from explicit connectivity (CONECT) records,
only the center (first) index of a record gains the listed indices in its
stored bond list; every other atom — in particular each listed bonded
atom — has its stored bond list unchanged by that record. -/
theorem C4_conect_one_directional (p : VsUtils.PDB) (r : Nat × List Nat)
    (j : Nat) :
    (j ≠ r.1 →
      (p.load_bonds_from_PDB_list [r]).connectedListOf j =
        p.connectedListOf j) ∧
    (p.hasIndex r.1 = true →
      (p.load_bonds_from_PDB_list [r]).connectedListOf r.1 =
        p.connectedListOf r.1 ++ r.2.filter (fun i => p.hasIndex i)) := by
  constructor
  · intro h
    exact VsUtils.connectedListOf_applyBondRecord_ne p r j h
  · intro h
    exact VsUtils.connectedListOf_applyBondRecord_center p r h

/-- C4 witness: in the CO₂ test model, the record `CONECT 1 2 3` adds
bonds only to atom 1; atom 2's stored list stays empty. -/
theorem C4_conect_one_directional_witness :
    ((2 : Nat) ≠ 1 ∧ VsUtils.co2Pdb.hasIndex 1 = true) ∧
    (VsUtils.co2Pdb.load_bonds_from_PDB_list [(1, [2, 3])]).connectedListOf 2 =
      VsUtils.co2Pdb.connectedListOf 2 ∧
    (VsUtils.co2Pdb.load_bonds_from_PDB_list [(1, [2, 3])]).connectedListOf 1 =
      VsUtils.co2Pdb.connectedListOf 1 ++ [2, 3] := by
  refine ⟨⟨by decide, by decide⟩,
    (C4_conect_one_directional VsUtils.co2Pdb (1, [2, 3]) 2).1 (by decide), ?_⟩
  have h := (C4_conect_one_directional VsUtils.co2Pdb (1, [2, 3]) 2).2 (by decide)
  rw [h]
  decide

/-- C6 helper: membership in one symmetrized filtered query. -/
theorem mem_symmetrized_query (p : VsUtils.PDB) (i j : Nat)
    (q : VsUtils.Atom → Bool)
    (hnd : (p.all_atoms.map Prod.fst).Nodup) :
    (j ∈ p.all_atoms.filterMap (fun e =>
        if e.1 ≠ i ∧ p.symmetrizedBond i e.1 ∧ q e.2 = true then some e.1
        else none)) ↔
      j ≠ i ∧ p.symmetrizedBond i j = true ∧
        ∃ a, p.lookup j = some a ∧ q a = true := by
  rw [List.mem_filterMap]
  constructor
  · rintro ⟨en, hmem, hif⟩
    by_cases hc : en.1 ≠ i ∧ p.symmetrizedBond i en.1 ∧ q en.2 = true
    · rw [if_pos hc] at hif
      obtain ⟨h1, h2, h3⟩ := hc
      injection hif with hkey
      subst hkey
      have hfind : p.all_atoms.find? (fun e => e.1 = en.1) = some (en.1, en.2) :=
        VsUtils.find?_fst_of_mem_of_nodup hmem hnd
      refine ⟨h1, h2, en.2, ?_, h3⟩
      unfold VsUtils.PDB.lookup
      rw [hfind]
      rfl
    · rw [if_neg hc] at hif
      cases hif
  · rintro ⟨h1, h2, a, hl, hq⟩
    unfold VsUtils.PDB.lookup at hl
    cases hf : p.all_atoms.find? (fun e => e.1 = j) with
    | none => rw [hf] at hl; cases hl
    | some en =>
      rw [hf] at hl
      have hkey : en.1 = j := by simpa using List.find?_some hf
      have hsnd : en.2 = a := by
        simpa [Option.map] using hl
      refine ⟨en, List.mem_of_find?_eq_some hf, ?_⟩
      rw [if_pos ⟨by rw [hkey]; exact h1, by rw [hkey]; exact h2,
        by rw [hsnd]; exact hq⟩, hkey]

/-- C6: with duplicate-free atom indices, `connected_atoms_of_given_element`
and `connected_heavy_atoms` answer from the symmetrized (undirected) bond
graph: an atom recorded as bonded in either direction is returned whenever
its element matches (respectively is not hydrogen), regardless of which
atom's stored list holds the bond. -/
theorem C6_symmetrized_neighbor_queries (p : VsUtils.PDB) (i j : Nat)
    (elem : String) (hnd : (p.all_atoms.map Prod.fst).Nodup) :
    (j ∈ p.connected_atoms_of_given_element i elem ↔
      j ≠ i ∧ p.symmetrizedBond i j = true ∧ p.elementOf j = some elem) ∧
    (j ∈ p.connected_heavy_atoms i ↔
      j ≠ i ∧ p.symmetrizedBond i j = true ∧
        ∃ el, p.elementOf j = some el ∧ el ≠ "H") := by
  constructor
  · unfold VsUtils.PDB.connected_atoms_of_given_element
    have h := mem_symmetrized_query p i j (fun a => a.element = elem) hnd
    simp only [decide_eq_true_eq] at h
    rw [h]
    unfold VsUtils.PDB.elementOf
    constructor
    · rintro ⟨h1, h2, a, hl, he⟩
      exact ⟨h1, h2, by rw [hl]; simp [he]⟩
    · rintro ⟨h1, h2, he⟩
      cases hl : p.lookup j with
      | none => rw [hl] at he; cases he
      | some a =>
        rw [hl] at he
        refine ⟨h1, h2, a, rfl, ?_⟩
        simpa [Option.map] using he
  · unfold VsUtils.PDB.connected_heavy_atoms
    have h := mem_symmetrized_query p i j (fun a => a.element ≠ "H") hnd
    simp only [decide_eq_true_eq] at h
    rw [h]
    unfold VsUtils.PDB.elementOf
    constructor
    · rintro ⟨h1, h2, a, hl, he⟩
      exact ⟨h1, h2, a.element, by rw [hl]; rfl, he⟩
    · rintro ⟨h1, h2, el, he, hne⟩
      cases hl : p.lookup j with
      | none => rw [hl] at he; cases he
      | some a =>
        rw [hl] at he
        have : a.element = el := by simpa [Option.map] using he
        exact ⟨h1, h2, a, rfl, this ▸ hne⟩

/-- C6 witness: in the asymmetric carboxyl model (bonds stored only on the
carbon), querying from the oxygen still returns the carbon. -/
theorem C6_symmetrized_neighbor_queries_witness :
    (VsUtils.carboxylPdb.all_atoms.map Prod.fst).Nodup ∧
    ((1 ∈ VsUtils.carboxylPdb.connected_atoms_of_given_element 2 "C" ↔
      (1 : Nat) ≠ 2 ∧ VsUtils.carboxylPdb.symmetrizedBond 2 1 = true ∧
        VsUtils.carboxylPdb.elementOf 1 = some "C") ∧
    (1 ∈ VsUtils.carboxylPdb.connected_heavy_atoms 2 ↔
      (1 : Nat) ≠ 2 ∧ VsUtils.carboxylPdb.symmetrizedBond 2 1 = true ∧
        ∃ el, VsUtils.carboxylPdb.elementOf 1 = some el ∧ el ≠ "H")) :=
  ⟨by decide,
   C6_symmetrized_neighbor_queries VsUtils.carboxylPdb 2 1 "C" (by decide)⟩

/-- C8: for all points p and q, the point returned by `average_point(p, q)`
is equidistant from both endpoints: the Euclidean distance from the
midpoint to `p` equals the distance from the midpoint to `q`. -/
theorem C8_average_point_equidistant (p q : VsUtils.Point) :
    Real.sqrt (VsUtils.distSq (VsUtils.average_point p q) p : ℚ) =
      Real.sqrt (VsUtils.distSq (VsUtils.average_point p q) q : ℚ) := by
  rw [VsUtils.distSq_average_point]

/-- C3: every recognized charged-group rule, applied to its canonical
reference structure, yields exactly one charged group of the documented
polarity: lysine, arginine, histidine and a metal ion are positive;
glutamic acid, aspartic acid, the carboxylic-acid ligand, the
sulfonate-like ligand and the phosphate-like ligand are negative; the
guanidine ligand's carbon group is positive. -/
theorem C3_charge_rule_polarities :
    (VsUtils.lysinePdb.get_lysine_charges
        VsUtils.lysinePdb.get_residues).map VsUtils.ChargedGroup.positive =
      [true] ∧
    (VsUtils.argininePdb.get_arginine_charges
        VsUtils.argininePdb.get_residues).map VsUtils.ChargedGroup.positive =
      [true] ∧
    (VsUtils.histidinePdb.get_histidine_charges
        VsUtils.histidinePdb.get_residues).map VsUtils.ChargedGroup.positive =
      [true] ∧
    (VsUtils.glutamicAcidPdb.get_glutamic_acid_charges
        VsUtils.glutamicAcidPdb.get_residues).map VsUtils.ChargedGroup.positive =
      [false] ∧
    (VsUtils.asparticAcidPdb.get_aspartic_acid_charges
        VsUtils.asparticAcidPdb.get_residues).map VsUtils.ChargedGroup.positive =
      [false] ∧
    (VsUtils.magnesiumPdb.identify_metallic_charges).map
        VsUtils.ChargedGroup.positive = [true] ∧
    (VsUtils.guanidinePdb.identify_carbon_group_charges).map
        VsUtils.ChargedGroup.positive = [true] ∧
    (VsUtils.formicAcidPdb.identify_carbon_group_charges).map
        VsUtils.ChargedGroup.positive = [false] ∧
    (VsUtils.sulfonatePdb.identify_sulfur_group_charges).map
        VsUtils.ChargedGroup.positive = [false] ∧
    (VsUtils.phosphatePdb.identify_phosphorus_group_charges).map
        VsUtils.ChargedGroup.positive = [false] := by
  decide

/-- C7: ring perception on the benzene-like structure yields exactly one
aromatic ring, that ring has six member indices, and its index set is
exactly the six ring atoms 1–6. -/
theorem C7_benzene_single_ring :
    (VsUtils.benzenePdb.assign_aromatic_rings).aromatic_rings.length = 1 ∧
    (VsUtils.benzenePdb.assign_aromatic_rings).aromatic_rings.map
        (fun r => r.indices.length) = [6] ∧
    (VsUtils.benzenePdb.assign_aromatic_rings).aromatic_rings.map
        (fun r => VsUtils.sortNat r.indices) = [[1, 2, 3, 4, 5, 6]] := by
  decide

namespace VsUtils

/-- Bucket accumulation never changes the key column. -/
theorem addToDict_keys (d : FeatDict) (k : String) (v : ℚ) :
    (addToDict d k v).map Prod.fst = d.map Prod.fst := by
  induction d with
  | nil => rfl
  | cons e d ih =>
    show ((if e.1 = k then (e.1, e.2 + v) else e) ::
        addToDict d k v).map Prod.fst = _
    by_cases h : e.1 = k <;> simp [h, ih]

/-- An accumulated dictionary has exactly the schema's keys, in order. -/
theorem accumulate_keys (keys : List String) (c : List (String × ℚ)) :
    (accumulate keys c).map Prod.fst = keys := by
  suffices h : ∀ d : FeatDict,
      (c.foldl (fun acc kv => addToDict acc kv.1 kv.2) d).map Prod.fst =
        d.map Prod.fst by
    unfold accumulate
    rw [h]
    unfold zeroDict
    rw [List.map_map]
    show List.map id keys = keys
    exact List.map_id keys
  intro d
  induction c generalizing d with
  | nil => rfl
  | cons kv c ih =>
    simp only [List.foldl_cons]
    rw [ih, addToDict_keys]

/-- An accumulated dictionary has exactly as many entries as its schema. -/
theorem accumulate_length (keys : List String) (c : List (String × ℚ)) :
    (accumulate keys c).length = keys.length := by
  have h := accumulate_keys keys c
  calc (accumulate keys c).length
      = ((accumulate keys c).map Prod.fst).length := (List.length_map _ _).symm
    _ = keys.length := by rw [h]

end VsUtils

/-- C2: for every ligand/receptor pair the sub-computations expose exactly
their documented key sets, with every key present even at count zero:
`compute_hydrogen_bonds` has exactly the 12 donor-role × backbone/sidechain
× secondary-structure keys, and `compute_hydrophobic_contacts` and
`compute_active_site_flexibility` have exactly the 6 backbone/sidechain ×
secondary-structure keys. -/
theorem C2_bucket_key_schemas (lig rec : VsUtils.PDB) :
    (VsUtils.compute_hydrogen_bonds lig rec).map Prod.fst =
      VsUtils.hbond_keys ∧
    (VsUtils.compute_hydrophobic_contacts lig rec).map Prod.fst =
      VsUtils.bbsc_keys ∧
    (VsUtils.compute_active_site_flexibility lig rec).map Prod.fst =
      VsUtils.bbsc_keys :=
  ⟨VsUtils.accumulate_keys _ _, VsUtils.accumulate_keys _ _,
   VsUtils.accumulate_keys _ _⟩

set_option maxRecDepth 10000 in
/-- C1: for every ligand and receptor model, the Binana input vector has
exactly length 3·N·(N+1)/2 + N + 12 + 6 + 3 + 6 + 3 + 6 + 3 + 1, where N
is the number of recognized atom types. -/
theorem C1_input_vector_length (lig rec : VsUtils.PDB) :
    (VsUtils.Binana.compute_input_vector lig rec).length =
      3 * VsUtils.Binana.atom_types.length *
          (VsUtils.Binana.atom_types.length + 1) / 2 +
        VsUtils.Binana.atom_types.length + 12 + 6 + 3 + 6 + 3 + 6 + 3 + 1 := by
  simp only [VsUtils.Binana.compute_input_vector, VsUtils.compute_contacts,
    VsUtils.compute_electrostatic_energy, VsUtils.compute_ligand_atom_counts,
    VsUtils.compute_hydrogen_bonds, VsUtils.compute_hydrophobic_contacts,
    VsUtils.compute_pi_pi_stacking, VsUtils.compute_pi_cation,
    VsUtils.compute_pi_t, VsUtils.compute_active_site_flexibility,
    VsUtils.compute_salt_bridges, List.length_append, List.length_map,
    VsUtils.accumulate_length, List.length_cons, List.length_nil]
  decide

namespace VsUtils

/-- Insertion keeps exactly the old members plus the new one. -/
theorem mem_insortNat (a n : Nat) (l : List Nat) :
    a ∈ insortNat n l ↔ a = n ∨ a ∈ l := by
  induction l with
  | nil => simp [insortNat]
  | cons m r ih =>
    by_cases h : n ≤ m
    · simp [insortNat, h, List.mem_cons]
    · simp only [insortNat, if_neg h, List.mem_cons, ih]
      tauto

/-- Sorting keeps exactly the members. -/
theorem mem_sortNat (a : Nat) (l : List Nat) : a ∈ sortNat l ↔ a ∈ l := by
  induction l with
  | nil => simp [sortNat]
  | cons m r ih =>
    show a ∈ insortNat m (sortNat r) ↔ _
    rw [mem_insortNat]
    simp [ih, List.mem_cons]

/-- `np.unique(x).size == x.size` is exactly duplicate-freeness. -/
theorem dedup_length_iff_nodup (l : List Nat) :
    l.dedup.length = l.length ↔ l.Nodup := by
  constructor
  · intro h
    have hsub := List.dedup_sublist l
    have heq := hsub.eq_of_length h
    rw [← heq]
    exact List.nodup_dedup l
  · intro h
    rw [List.dedup_eq_self.2 h]

/-- Indexing at the first position of a present value returns it. -/
theorem getD_firstIdx (l : List Nat) (n : Nat) (h : n ∈ l) :
    l.getD (Featurize.firstIdx n l) 0 = n := by
  induction l with
  | nil => cases h
  | cons m r ih =>
    by_cases hm : m = n
    · simp [Featurize.firstIdx, hm]
    · have h2 : n ∈ r := by
        rcases List.mem_cons.1 h with h3 | h3
        · exact absurd h3.symm hm
        · exact h3
      rw [show Featurize.firstIdx n (m :: r) = Featurize.firstIdx n r + 1 by
        simp [Featurize.firstIdx, hm]]
      rw [List.getD_cons_succ]
      exact ih h2

/-- `getD` after `map`, in bounds. -/
theorem getD_map_lt (f : Nat → Nat) (l : List Nat) (k : Nat)
    (h : k < l.length) (d d2 : Nat) :
    (l.map f).getD k d = f (l.getD k d2) := by
  induction l generalizing k with
  | nil => exact absurd h (Nat.not_lt_zero k)
  | cons m r ih =>
    cases k with
    | zero => rfl
    | succ k =>
      simpa using ih k (Nat.lt_of_succ_lt_succ h) 

/-- An in-bounds `getD` yields a member. -/
theorem getD_mem_of_lt (l : List Nat) (k : Nat) (h : k < l.length)
    (d : Nat) : l.getD k d ∈ l := by
  induction l generalizing k with
  | nil => exact absurd h (Nat.not_lt_zero k)
  | cons m r ih =>
    cases k with
    | zero => exact List.mem_cons_self m r
    | succ k =>
      exact List.mem_cons_of_mem m (ih k (Nat.lt_of_succ_lt_succ h))

/-- Membership in the embedded `np.intersect1d`. -/
theorem mem_intersect1d (xs ys : List Nat) (n : Nat) :
    n ∈ Featurize.intersect1d xs ys ↔ n ∈ xs ∧ n ∈ ys := by
  unfold Featurize.intersect1d
  rw [mem_sortNat, List.mem_dedup, List.mem_filter]
  simp

end VsUtils

/-- C9 (amended): provided both paired length assertions pass,
`collate_mols` raises `ValueError` whenever either name array has a
duplicate; with both arrays duplicate-free it returns equal-length index
arrays with `mol_names[mol_indices[k]] = target_ids[target_indices[k]]`
at every position, and the selected names are exactly the set
intersection of the two name arrays. -/
theorem C9_collate_mols_spec {α β : Type} (mols : List α)
    (mol_names : List Nat) (targets : List β) (target_ids : List Nat)
    (hm : mols.length = mol_names.length)
    (ht : targets.length = target_ids.length) :
    ((¬ mol_names.Nodup ∨ ¬ target_ids.Nodup) →
      VsUtils.Featurize.collate_mols mols mol_names targets target_ids =
        Except.error VsUtils.PyError.valueError) ∧
    (mol_names.Nodup → target_ids.Nodup →
      ∃ mi ti,
        VsUtils.Featurize.collate_mols mols mol_names targets target_ids =
          Except.ok (mi, ti) ∧
        mi.length = ti.length ∧
        (∀ k, k < mi.length →
          mol_names.getD (mi.getD k 0) 0 =
            target_ids.getD (ti.getD k 0) 0) ∧
        (∀ n, n ∈ mi.map (fun i => mol_names.getD i 0) ↔
          n ∈ mol_names ∧ n ∈ target_ids)) := by
  unfold VsUtils.Featurize.collate_mols
  have hc : ¬ ¬ (mols.length = mol_names.length ∧
      targets.length = target_ids.length) := by
    simp [hm, ht]
  rw [if_neg hc]
  constructor
  · intro hdup
    by_cases h1 : mol_names.dedup.length ≠ mol_names.length
    · rw [if_pos h1]
    · rcases hdup with hd | hd
      · exact absurd ((VsUtils.dedup_length_iff_nodup _).1 (not_not.1 h1)) hd
      · rw [if_neg h1,
          if_pos (fun hlen => hd ((VsUtils.dedup_length_iff_nodup _).1 hlen))]
  · intro hnd1 hnd2
    rw [if_neg (not_not_intro ((VsUtils.dedup_length_iff_nodup _).2 hnd1)),
        if_neg (not_not_intro ((VsUtils.dedup_length_iff_nodup _).2 hnd2))]
    refine ⟨(VsUtils.Featurize.intersect1d mol_names target_ids).map
        (fun n => VsUtils.Featurize.firstIdx n mol_names),
      (VsUtils.Featurize.intersect1d mol_names target_ids).map
        (fun n => VsUtils.Featurize.firstIdx n target_ids),
      rfl, by simp, ?_, ?_⟩
    · intro k hk
      rw [List.length_map] at hk
      rw [VsUtils.getD_map_lt _ _ _ hk 0 0, VsUtils.getD_map_lt _ _ _ hk 0 0]
      have hmem := VsUtils.getD_mem_of_lt _ _ hk 0
      have hmem2 := (VsUtils.mem_intersect1d _ _ _).1 hmem
      rw [VsUtils.getD_firstIdx _ _ hmem2.1,
        VsUtils.getD_firstIdx _ _ hmem2.2]
    · intro n
      rw [List.map_map]
      have hcong : (VsUtils.Featurize.intersect1d mol_names target_ids).map
          ((fun i => mol_names.getD i 0) ∘
            (fun n => VsUtils.Featurize.firstIdx n mol_names)) =
          (VsUtils.Featurize.intersect1d mol_names target_ids).map id := by
        apply List.map_congr_left
        intro s hs
        exact VsUtils.getD_firstIdx _ _
          ((VsUtils.mem_intersect1d _ _ _).1 hs).1
      rw [hcong, List.map_id]
      exact VsUtils.mem_intersect1d _ _ _

/-- C9 witness: a concrete collation with one shared name (2), showing the
specification conjunction instantiated and its hypotheses discharged. -/
theorem C9_collate_mols_spec_witness :
    (([10, 20, 30] : List Nat).length = ([3, 1, 2] : List Nat).length ∧
      ([7, 8] : List Int).length = ([2, 9] : List Nat).length) ∧
    (((¬ ([3, 1, 2] : List Nat).Nodup ∨ ¬ ([2, 9] : List Nat).Nodup) →
      VsUtils.Featurize.collate_mols ([10, 20, 30] : List Nat) [3, 1, 2]
          ([7, 8] : List Int) [2, 9] =
        Except.error VsUtils.PyError.valueError) ∧
    (([3, 1, 2] : List Nat).Nodup → ([2, 9] : List Nat).Nodup →
      ∃ mi ti,
        VsUtils.Featurize.collate_mols ([10, 20, 30] : List Nat) [3, 1, 2]
            ([7, 8] : List Int) [2, 9] = Except.ok (mi, ti) ∧
        mi.length = ti.length ∧
        (∀ k, k < mi.length →
          ([3, 1, 2] : List Nat).getD (mi.getD k 0) 0 =
            ([2, 9] : List Nat).getD (ti.getD k 0) 0) ∧
        (∀ n, n ∈ mi.map (fun i => ([3, 1, 2] : List Nat).getD i 0) ↔
          n ∈ ([3, 1, 2] : List Nat) ∧ n ∈ ([2, 9] : List Nat)))) :=
  ⟨⟨by decide, by decide⟩,
   C9_collate_mols_spec [10, 20, 30] [3, 1, 2] [7, 8] [2, 9]
     (by decide) (by decide)⟩

/-- C9 counterexample: with duplicated molecule names but mismatched
`mols`/`mol_names` lengths, the paired-length `assert` fires first, so the
call raises `AssertionError`, not `ValueError` — refuting the claim as
stated. -/
theorem C9_collate_mols_counterexample :
    VsUtils.Featurize.collate_mols ([] : List Nat) [5, 5] ([] : List Int)
        ([] : List Nat) = Except.error VsUtils.PyError.assertionError ∧
    ¬ ([5, 5] : List Nat).Nodup ∧
    ¬ (VsUtils.Featurize.collate_mols ([] : List Nat) [5, 5]
        ([] : List Int) ([] : List Nat) =
      Except.error VsUtils.PyError.valueError) := by
  refine ⟨rfl, by decide, ?_⟩
  intro h
  rw [show VsUtils.Featurize.collate_mols ([] : List Nat) [5, 5]
      ([] : List Int) ([] : List Nat) =
      Except.error VsUtils.PyError.assertionError from rfl] at h
  injection h with h2
  exact absurd h2 (by decide)

/-- C10: the sanity assertion `data['mol_id'].shape[0] == len(mols)` in
`main` can never fail: `read_mols` appends exactly one name per molecule,
and in the collation branch the same `mol_indices` array is applied to
both `mols` and `mol_ids`, so the check reached after any of the target
branches always evaluates to true. -/
theorem C10_mol_id_assertion_never_fails (input : List (Option Nat))
    (pfx : Option Nat) (tgt : Option VsUtils.Featurize.TargetData) :
    VsUtils.Featurize.main_mol_id_check input pfx tgt ≠ Except.ok false := by
  unfold VsUtils.Featurize.main_mol_id_check VsUtils.Featurize.read_mols
  cases tgt with
  | none => simp
  | some td =>
    cases td with
    | arr y =>
      by_cases h : y.length = input.length
      · simp [h]
      · simp [h]
    | dict y tids =>
      cases hcol : VsUtils.Featurize.collate_mols input
          (input.map (VsUtils.Featurize.encodeName pfx)) y tids with
      | error e => simp [hcol]
      | ok pr => simp [hcol]
